import Mathlib

/-!
Verification of the session lifecycle manager and the stateless
authentication resolver of the SFDC MCP HTTP server.

The embedding follows the source files:
the OAuth middleware (getHeaderValue, salesforceOAuthMiddleware),
the per-request auth helpers (deriveInstanceUrlFromToken, getAuthContext),
and the HTTP session layer of startHttpServer (the /mcp handler, the
keepalive interval and the idle prune loop).  The four process-wide maps
(transports, mcpServers, sseStreams, sessionActivity) are modelled as
association lists keyed by session id; the periodic sweeps are modelled
as folds over a snapshot of the map being iterated, which matches the
single-threaded JS semantics of iterating a Map while deleting the
current entry.  Network effects are modelled by an explicit oracle value
plus a call counter threaded through the functions that fetch.
-/

namespace SfdcMcp

/-- Character test used by the model of the JS trim method; the source
only ever compares the trimmed token against the empty string, so the
exact whitespace alphabet is irrelevant to the claims. -/
def jsWs (c : Char) : Bool :=
  c == ' ' || c == '\t' || c == '\n' || c == '\r'

/-- Model of the JS trim() string method: whitespace removed from both ends. -/
def jsTrim (s : String) : String :=
  String.mk (((s.toList.dropWhile jsWs).reverse.dropWhile jsWs).reverse)

/-- Model of JS substring(n): drop the first n code units. -/
def jsDrop (n : Nat) (s : String) : String :=
  String.mk (s.toList.drop n)

/-- Model of JS startsWith. -/
def jsStartsWith (s tag : String) : Bool :=
  tag.toList.isPrefixOf s.toList

/-- A header value as Node delivers it: a single string or an array of strings. -/
inductive HeaderVal where
  | str (s : String)
  | list (l : List String)
deriving DecidableEq

/-- The header store of a request. -/
abbrev Headers := List (String × HeaderVal)

/-- Model of the indexing access req.headers[name]. -/
def findHeader : Headers → String → Option HeaderVal
  | [], _ => none
  | (k, v) :: rest, n => if k = n then some v else findHeader rest n

/-- JS truthiness of a header value: the empty string is falsy, every
array (including the empty one) is truthy. -/
def jsFalsy : HeaderVal → Bool
  | HeaderVal.str s => s == ""
  | HeaderVal.list _ => false

/-- getHeaderValue from the middleware and from the auth helper: returns
undefined for a falsy raw value, the first element for an array, and the
string itself otherwise. -/
def getHeaderValue (headers : Headers) (name : String) : Option String :=
  match findHeader headers name with
  | none => none
  | some v =>
    if jsFalsy v then none
    else
      match v with
      | HeaderVal.str s => some s
      | HeaderVal.list l => l.head?

/-- SalesforceAuthContext from the type declarations. -/
structure SalesforceAuthContext where
  accessToken : String
  instanceUrl : Option String
  userId : Option String
deriving DecidableEq

/-- A JSON-RPC correlation id: a string or a number.  An absent or JSON
null id is modelled as none on the request side, since both hit the
nullish-coalescing fallback in the source. -/
inductive JsonId where
  | s (v : String)
  | n (v : Int)
deriving DecidableEq

/-- The parsed JSON body of a request; both fields are optional. -/
structure RpcBody where
  method : Option String
  id : Option JsonId
deriving DecidableEq

/-- An inbound HTTP request: method, header store, and optional parsed body. -/
structure Request where
  httpMethod : String
  headers : Headers
  body : Option RpcBody
deriving DecidableEq

/-- The outcome of the middleware: pass the request on (with an auth
context attached on the authenticated path) or short-circuit with a
protocol-level error response. -/
inductive MwResult where
  | next (auth : Option SalesforceAuthContext)
  | reject (status : Nat) (code : Int) (message : String) (id : Option JsonId)
deriving DecidableEq

/-- The fixed allow-list of protocol methods that bypass authentication. -/
def skipAuthMethods : List String := ["ping", "initialize"]

/-- skipAuthMethods.includes(method); an undefined method is never in the list. -/
def isSkipMethod : Option String → Bool
  | some m => skipAuthMethods.contains m
  | none => false

/-- The middleware correlation id: req.body?.id with the string literal
"unknown" as nullish fallback. -/
def mwRequestId : Option RpcBody → Option JsonId
  | none => some (JsonId.s "unknown")
  | some b =>
    match b.id with
    | none => some (JsonId.s "unknown")
    | some v => some v

/-- The pattern x or-else undefined applied to an optional string: it
collapses the empty string to undefined. -/
def normFalsy : Option String → Option String
  | none => none
  | some s => if s = "" then none else some s

def missingAuthMessage : String :=
  "Missing Authorization header. Please authenticate with Salesforce."

def malformedAuthMessage : String :=
  "Invalid Authorization header format. Expected \"Bearer <token>\"."

def emptyTokenMessage : String := "Empty access token"

/-- salesforceOAuthMiddleware from the source: skip GET requests and the
allow-listed protocol methods, then validate the authorization header in
three steps (present and truthy, Bearer-prefixed, non-empty remainder)
and attach the auth context on success. -/
def salesforceOAuthMiddleware (req : Request) : MwResult :=
  if req.httpMethod = "GET" then MwResult.next none
  else
    let method := req.body.bind RpcBody.method
    let requestId := mwRequestId req.body
    if isSkipMethod method then MwResult.next none
    else
      match getHeaderValue req.headers "authorization" with
      | none => MwResult.reject 401 (-32000) missingAuthMessage requestId
      | some authHeader =>
        if authHeader = "" then MwResult.reject 401 (-32000) missingAuthMessage requestId
        else if jsStartsWith authHeader "Bearer " = false then
          MwResult.reject 401 (-32000) malformedAuthMessage requestId
        else
          let accessToken := jsTrim (jsDrop 7 authHeader)
          if accessToken = "" then MwResult.reject 401 (-32000) emptyTokenMessage requestId
          else
            MwResult.next (some
              { accessToken := accessToken
                instanceUrl := normFalsy (getHeaderValue req.headers "x-salesforce-instance-url")
                userId := none })

/-- The observable result of the single fetch to the userinfo endpoint:
the fetch itself raised, or a response with an ok flag and a body.  The
body is none when response.json() raises, and otherwise carries the
optional urls.rest field of the parsed JSON. -/
inductive FetchResult where
  | networkError
  | response (ok : Bool) (body : Option (Option String))
deriving DecidableEq

/-- The two URL components read back by the source. -/
structure URLParts where
  protocol : String
  host : String
deriving DecidableEq

/-- Split a character sequence at the first occurrence of the scheme
separator; none when no separator occurs. -/
def splitScheme : List Char → Option (List Char × List Char)
  | [] => none
  | ':' :: '/' :: '/' :: rest => some ([], rest)
  | c :: rest =>
    match splitScheme rest with
    | some (a, b) => some (c :: a, b)
    | none => none

/-- Model of the WHATWG URL constructor restricted to the absolute
hierarchical shapes this code hands it: the protocol is the scheme with
a trailing colon and the host is the authority up to the first path,
query or fragment delimiter; none models the constructor throwing. -/
def parseURL (s : String) : Option URLParts :=
  match splitScheme s.toList with
  | none => none
  | some (schemeCs, restCs) =>
    if schemeCs.isEmpty then none
    else
      let authority := restCs.takeWhile (fun c => !(c == '/' || c == '?' || c == '#'))
      if authority.isEmpty then none
      else some { protocol := String.mk schemeCs ++ ":", host := String.mk authority }

/-- The pure part of deriveInstanceUrlFromToken after the fetch: reject
non-ok responses, unparseable bodies and a missing or falsy urls.rest
field, then rebuild protocol//host from the parsed URL; every failure
path yields undefined. -/
def processUserinfo : FetchResult → Option String
  | FetchResult.networkError => none
  | FetchResult.response ok body =>
    if ok = false then none
    else
      match body with
      | none => none
      | some restUrlField =>
        match restUrlField with
        | none => none
        | some restUrl =>
          if restUrl = "" then none
          else
            match parseURL restUrl with
            | none => none
            | some u => some (u.protocol ++ "//" ++ u.host)

/-- deriveInstanceUrlFromToken: the function performs exactly one fetch
of the userinfo endpoint before any branching, modelled by consuming the
oracle response and bumping the call counter, then processes the
response purely. -/
def deriveInstanceUrlFromToken (fr : FetchResult) (calls : Nat) : Option String × Nat :=
  (processUserinfo fr, calls + 1)

/-- getAuthContext from the auth helper: extract the bearer token from
the normalized authorization header, then resolve the instance URL from
the fast-path header when its normalized value is truthy and otherwise
through one introspection call. -/
def getAuthContext (headers : Option Headers) (fr : FetchResult) (calls : Nat) :
    Option SalesforceAuthContext × Nat :=
  match headers with
  | none => (none, calls)
  | some hs =>
    match getHeaderValue hs "authorization" with
    | none => (none, calls)
    | some authHeader =>
      if authHeader = "" then (none, calls)
      else if jsStartsWith authHeader "Bearer " = false then (none, calls)
      else
        let accessToken := jsTrim (jsDrop 7 authHeader)
        if accessToken = "" then (none, calls)
        else
          match normFalsy (getHeaderValue hs "x-salesforce-instance-url") with
          | some instanceUrl =>
            (some { accessToken := accessToken, instanceUrl := some instanceUrl, userId := none },
             calls)
          | none =>
            match deriveInstanceUrlFromToken fr calls with
            | (none, calls2) => (none, calls2)
            | (some derived, calls2) =>
              (some { accessToken := accessToken, instanceUrl := some derived, userId := none },
               calls2)

/-- The four process-wide session maps of startHttpServer.  The three
handle maps are modelled as lists of registered session ids and the
activity map as an association list of last-seen timestamps. -/
structure ServerState where
  transports : List String
  mcpServers : List String
  sseStreams : List String
  sessionActivity : List (String × Nat)
deriving DecidableEq

/-- Map.set for a handle map: a no-op when the key is present. -/
def insertId (sid : String) (l : List String) : List String :=
  if l.contains sid then l else l ++ [sid]

/-- Map.set for the activity map: update in place or append. -/
def touchActivity (sid : String) (now : Nat) (l : List (String × Nat)) : List (String × Nat) :=
  if l.any (fun p => p.1 == sid) then
    l.map (fun p => if p.1 = sid then (sid, now) else p)
  else l ++ [(sid, now)]

/-- Removal of a session from all four maps: the shared teardown shape
of the DELETE branch, the stream-close handler, the onsessionclosed
callback and the idle prune loop. -/
def destroySession (sid : String) (st : ServerState) : ServerState :=
  { transports := st.transports.filter (fun x => decide (x ≠ sid))
    mcpServers := st.mcpServers.filter (fun x => decide (x ≠ sid))
    sseStreams := st.sseStreams.filter (fun x => decide (x ≠ sid))
    sessionActivity := st.sessionActivity.filter (fun p => decide (p.1 ≠ sid)) }

/-- The onsessioninitialized callback: registers the server, the
transport and the first activity record for the freshly minted id. -/
def completeInit (newId : String) (now : Nat) (st : ServerState) : ServerState :=
  { st with
    mcpServers := insertId newId st.mcpServers
    transports := insertId newId st.transports
    sessionActivity := touchActivity newId now st.sessionActivity }

/-- The outcome of the /mcp handler short of the transport: an error
response, the creation of a fresh transport for the bootstrap handshake,
or forwarding to an existing transport. -/
inductive McpOutcome where
  | reject (status : Nat) (code : Int) (message : String) (id : Option JsonId)
  | handshake
  | forward
deriving DecidableEq

/-- The handler correlation id: req.body?.id with null as nullish fallback. -/
def handlerBodyId (body : Option RpcBody) : Option JsonId := body.bind RpcBody.id

def sessionRequiredMessage : String := "Initialize request required to create session"

def invalidSessionMessage : String := "Invalid or missing session ID"

def internalErrorMessage : String := "Internal error"

/-- The /mcp route handler of startHttpServer: a POST without a truthy
session header is accepted only for the initialize method; any other
request whose session id does not map to a live transport is rejected;
otherwise the request is forwarded after the bookkeeping updates
(activity touch on POST, stream registration on GET, full cleanup on
DELETE).  An unparseable body on the new-session path raises and is
surfaced by the outer catch as the internal error response. -/
def mcpHandler (req : Request) (now : Nat) (st : ServerState) : McpOutcome × ServerState :=
  let sidRaw := findHeader req.headers "mcp-session-id"
  let sidTruthy : Bool :=
    match sidRaw with
    | none => false
    | some (HeaderVal.str s) => !(s == "")
    | some (HeaderVal.list _) => true
  let sidKey : Option String :=
    match sidRaw with
    | some (HeaderVal.str s) => if s = "" then none else some s
    | _ => none
  let transportFound : Bool :=
    match sidKey with
    | some s => st.transports.contains s
    | none => false
  if sidTruthy = false ∧ req.httpMethod = "POST" then
    match req.body with
    | none => (McpOutcome.reject 500 (-32603) internalErrorMessage none, st)
    | some b =>
      if b.method = some "initialize" then (McpOutcome.handshake, st)
      else (McpOutcome.reject 400 (-32000) sessionRequiredMessage b.id, st)
  else if transportFound = false then
    (McpOutcome.reject 400 (-32000) invalidSessionMessage (handlerBodyId req.body), st)
  else
    let st2 :=
      match sidKey with
      | none => st
      | some s =>
        if req.httpMethod = "POST" ∧ (req.body.bind RpcBody.method).isSome = true then
          { st with sessionActivity := touchActivity s now st.sessionActivity }
        else if req.httpMethod = "GET" then
          { st with
            sseStreams := insertId s st.sseStreams
            sessionActivity := touchActivity s now st.sessionActivity }
        else if req.httpMethod = "DELETE" then destroySession s st
        else st
    (McpOutcome.forward, st2)

/-- What a keepalive write to one stream does: returns true, returns
false under backpressure, or raises. -/
inductive WriteOutcome where
  | ok
  | backpressure
  | thrown
deriving DecidableEq

/-- The catch block of the keepalive loop: delete the stream reference
and the activity record of the failed session, nothing else. -/
def dropStream (sid : String) (st : ServerState) : ServerState :=
  { st with
    sseStreams := st.sseStreams.filter (fun x => decide (x ≠ sid))
    sessionActivity := st.sessionActivity.filter (fun p => decide (p.1 ≠ sid)) }

/-- One iteration of the keepalive loop body for the stream of sid: only
a raised write mutates the state; a false return is only logged. -/
def keepaliveStep (w : String → WriteOutcome) (st : ServerState) (sid : String) : ServerState :=
  match w sid with
  | WriteOutcome.thrown => dropStream sid st
  | _ => st

/-- The keepalive loop over a snapshot of the stream map keys. -/
def keepaliveGo (w : String → WriteOutcome) (l : List String) (st : ServerState) : ServerState :=
  l.foldl (keepaliveStep w) st

/-- The keepalive half of the interval callback. -/
def keepaliveTick (w : String → WriteOutcome) (st : ServerState) : ServerState :=
  keepaliveGo w st.sseStreams st

/-- Idle TTL constant of the source: five minutes in milliseconds. -/
def sessionTtlMs : Nat := 5 * 60 * 1000

/-- Keepalive interval constant of the source: thirty seconds. -/
def keepaliveIntervalMs : Nat := 30000

/-- One iteration of the idle prune loop for one activity entry; the
destroyed ids are accumulated for the exactly-once statements. -/
def pruneStep (now ttl : Nat) (acc : ServerState × List String) (e : String × Nat) :
    ServerState × List String :=
  if ttl < now - e.2 then (destroySession e.1 acc.1, acc.2 ++ [e.1]) else acc

/-- The prune loop over a snapshot of the activity entries. -/
def pruneGo (now ttl : Nat) (l : List (String × Nat)) (acc : ServerState × List String) :
    ServerState × List String :=
  l.foldl (pruneStep now ttl) acc

/-- The idle-eviction half of the interval callback, returning the new
state and the ids destroyed during this sweep. -/
def pruneIdle (now ttl : Nat) (st : ServerState) : ServerState × List String :=
  pruneGo now ttl st.sessionActivity (st, [])

/-- One full interval callback: the keepalive loop, then the idle prune
loop with the fixed TTL. -/
def timerTick (w : String → WriteOutcome) (now : Nat) (st : ServerState) : ServerState :=
  (pruneIdle now sessionTtlMs (keepaliveTick w st)).1

/-- A run of successive interval callbacks, each with its own observed
write outcomes and clock reading. -/
def runTicks (ticks : List ((String → WriteOutcome) × Nat)) (st : ServerState) : ServerState :=
  ticks.foldl (fun s p => timerTick p.1 p.2 s) st

/-- Key pred of the keepalive sweep closed form: the session had a
stream in the snapshot and its write raised. -/
def deadB (w : String → WriteOutcome) (l : List String) (x : String) : Bool :=
  l.any (fun y => decide (y = x ∧ w y = WriteOutcome.thrown))

/-- Key pred of the prune sweep closed form: some snapshot entry for
this key is older than the TTL. -/
def prunedB (now ttl : Nat) (l : List (String × Nat)) (x : String) : Bool :=
  l.any (fun e => decide (e.1 = x ∧ ttl < now - e.2))

/-! ## General helper lemmas -/

theorem mem_insertId (x : String) (l : List String) : x ∈ insertId x l := by
  by_cases h : x ∈ l
  · simp [insertId, h]
  · simp [insertId, h]

theorem filter_idem {α : Type} (p : α → Bool) (l : List α) :
    (l.filter p).filter p = l.filter p := by
  rw [List.filter_filter]
  exact List.filter_congr (fun a _ => Bool.and_self (p a))

theorem keepaliveStep_eq (w : String → WriteOutcome) (st : ServerState) (sid : String) :
    keepaliveStep w st sid =
      if w sid = WriteOutcome.thrown then dropStream sid st else st := by
  cases h : w sid <;> simp [keepaliveStep, h]

theorem deadB_nil (w : String → WriteOutcome) (x : String) : deadB w [] x = false := rfl

theorem deadB_cons (w : String → WriteOutcome) (a : String) (t : List String) (x : String) :
    deadB w (a :: t) x =
      (decide (a = x ∧ w a = WriteOutcome.thrown) || deadB w t x) := by
  simp [deadB]

/-- Closed form of the keepalive loop: the transport and server maps are
untouched, and the stream and activity maps lose exactly the keys whose
stream was in the iterated snapshot and whose write raised. -/
theorem keepaliveGo_eq (w : String → WriteOutcome) :
    ∀ (l : List String) (st : ServerState),
    keepaliveGo w l st =
      ServerState.mk st.transports st.mcpServers
        (st.sseStreams.filter (fun x => !(deadB w l x)))
        (st.sessionActivity.filter (fun p => !(deadB w l p.1))) := by
  intro l
  induction l with
  | nil =>
    intro st
    simp only [keepaliveGo, List.foldl_nil, deadB_nil, Bool.not_false, List.filter_true]
  | cons a t ih =>
    intro st
    show keepaliveGo w t (keepaliveStep w st a) = _
    rw [ih, keepaliveStep_eq]
    by_cases hw : w a = WriteOutcome.thrown
    · have h1 : ∀ x : String,
          (!(deadB w t x) && decide (x ≠ a)) = !(deadB w (a :: t) x) := by
        intro x
        by_cases hax : a = x
        · subst hax
          simp [deadB_cons, hw]
        · have hxa : x ≠ a := fun h => hax h.symm
          simp [deadB_cons, hax, hxa]
      simp only [if_pos hw, dropStream, List.filter_filter, ServerState.mk.injEq]
      exact ⟨trivial, trivial, List.filter_congr (fun x _ => h1 x),
        List.filter_congr (fun p _ => h1 p.1)⟩
    · have h1 : ∀ x : String, (!(deadB w t x)) = !(deadB w (a :: t) x) := by
        intro x
        by_cases hax : a = x
        · subst hax
          simp [deadB_cons, hw]
        · simp [deadB_cons, hax]
      simp only [if_neg hw, ServerState.mk.injEq]
      exact ⟨trivial, trivial, List.filter_congr (fun x _ => h1 x),
        List.filter_congr (fun p _ => h1 p.1)⟩

theorem prunedB_nil (now ttl : Nat) (x : String) : prunedB now ttl [] x = false := rfl

theorem prunedB_cons (now ttl : Nat) (e : String × Nat) (t : List (String × Nat)) (x : String) :
    prunedB now ttl (e :: t) x =
      (decide (e.1 = x ∧ ttl < now - e.2) || prunedB now ttl t x) := by
  simp [prunedB]

/-- Closed form of the prune loop: every map loses exactly the keys that
have an over-TTL entry in the iterated activity snapshot, and the
destroyed list appends the keys of the over-TTL entries in order. -/
theorem pruneGo_eq (now ttl : Nat) :
    ∀ (l : List (String × Nat)) (st : ServerState) (ds : List String),
    pruneGo now ttl l (st, ds) =
      (ServerState.mk
        (st.transports.filter (fun x => !(prunedB now ttl l x)))
        (st.mcpServers.filter (fun x => !(prunedB now ttl l x)))
        (st.sseStreams.filter (fun x => !(prunedB now ttl l x)))
        (st.sessionActivity.filter (fun p => !(prunedB now ttl l p.1))),
       ds ++ (l.filter (fun e => decide (ttl < now - e.2))).map Prod.fst) := by
  intro l
  induction l with
  | nil =>
    intro st ds
    simp only [pruneGo, List.foldl_nil, prunedB_nil, Bool.not_false, List.filter_true,
      List.filter_nil, List.map_nil, List.append_nil]
  | cons e t ih =>
    intro st ds
    show pruneGo now ttl t (pruneStep now ttl (st, ds) e) = _
    by_cases he : ttl < now - e.2
    · have hstep : pruneStep now ttl (st, ds) e = (destroySession e.1 st, ds ++ [e.1]) := by
        simp [pruneStep, he]
      rw [hstep, ih]
      have h1 : ∀ x : String,
          (!(prunedB now ttl t x) && decide (x ≠ e.1)) = !(prunedB now ttl (e :: t) x) := by
        intro x
        by_cases hex : e.1 = x
        · subst hex
          simp [prunedB_cons, he]
        · have hx2 : x ≠ e.1 := fun h => hex h.symm
          simp [prunedB_cons, hex, hx2]
      simp only [destroySession, List.filter_filter, ServerState.mk.injEq, Prod.mk.injEq]
      refine ⟨⟨List.filter_congr (fun x _ => h1 x), List.filter_congr (fun x _ => h1 x),
        List.filter_congr (fun x _ => h1 x), List.filter_congr (fun p _ => h1 p.1)⟩, ?_⟩
      simp [List.filter_cons, he, List.append_assoc]
    · have hstep : pruneStep now ttl (st, ds) e = (st, ds) := by
        simp [pruneStep, he]
      rw [hstep, ih]
      have h1 : ∀ x : String, (!(prunedB now ttl t x)) = !(prunedB now ttl (e :: t) x) := by
        intro x
        simp [prunedB_cons, he]
      simp only [ServerState.mk.injEq, Prod.mk.injEq]
      refine ⟨⟨List.filter_congr (fun x _ => h1 x), List.filter_congr (fun x _ => h1 x),
        List.filter_congr (fun x _ => h1 x), List.filter_congr (fun p _ => h1 p.1)⟩, ?_⟩
      simp [List.filter_cons, he]

/-! ## Claim theorems -/

/-- Claim C1, counterexample.  The claim states that a keepalive write
rejected with backpressure (write returns false) removes the stream
reference, and that a write failure leaves the activity record
unchanged.  On a one-session state, a backpressure outcome changes
nothing at all (the stream reference stays), and a raised write deletes
the activity record as well. -/
theorem claim1_counterexample :
    keepaliveTick (fun _ => WriteOutcome.backpressure)
        (ServerState.mk ["s1"] ["s1"] ["s1"] [("s1", 0)]) =
      ServerState.mk ["s1"] ["s1"] ["s1"] [("s1", 0)] ∧
    (keepaliveTick (fun _ => WriteOutcome.thrown)
        (ServerState.mk ["s1"] ["s1"] ["s1"] [("s1", 0)])).sessionActivity = [] :=
  ⟨rfl, rfl⟩

/-- Claim C1, amended.  For a session with a registered stream: the
keepalive sweep never changes the transport or handler registrations and
never closes the session; if the write to that stream raises, the stream
reference and the activity record of that session are both removed; if
the write succeeds or is merely rejected with backpressure, the stream
reference stays registered and the activity record is unchanged. -/
theorem claim1_amended (w : String → WriteOutcome) (st : ServerState) (sid : String)
    (hs : sid ∈ st.sseStreams) :
    (keepaliveTick w st).transports = st.transports ∧
    (keepaliveTick w st).mcpServers = st.mcpServers ∧
    (w sid = WriteOutcome.thrown →
      sid ∉ (keepaliveTick w st).sseStreams ∧
      ∀ t, (sid, t) ∉ (keepaliveTick w st).sessionActivity) ∧
    (w sid ≠ WriteOutcome.thrown →
      sid ∈ (keepaliveTick w st).sseStreams ∧
      ∀ t, ((sid, t) ∈ (keepaliveTick w st).sessionActivity ↔
        (sid, t) ∈ st.sessionActivity)) := by
  rw [keepaliveTick, keepaliveGo_eq]
  refine ⟨rfl, rfl, ?_, ?_⟩
  · intro hw
    have hd : deadB w st.sseStreams sid = true := by
      simp only [deadB, List.any_eq_true]
      exact ⟨sid, hs, by simp [hw]⟩
    constructor
    · intro hc
      have h2 := (List.mem_filter.mp hc).2
      rw [hd] at h2
      simp at h2
    · intro t hc
      have h2 := (List.mem_filter.mp hc).2
      rw [hd] at h2
      simp at h2
  · intro hw
    have hd : deadB w st.sseStreams sid = false := by
      simp only [deadB, List.any_eq_false]
      intro y hy hand
      have hand2 := of_decide_eq_true hand
      exact hw (hand2.1 ▸ hand2.2)
    constructor
    · exact List.mem_filter.mpr ⟨hs, by simp [hd]⟩
    · intro t
      constructor
      · intro hc
        exact (List.mem_filter.mp hc).1
      · intro hc
        exact List.mem_filter.mpr ⟨hc, by simp [hd]⟩

/-- Claim C1 witness: a concrete one-session state with a raising write,
where the stream reference is indeed dropped. -/
theorem claim1_witness :
    ("s9" ∈ (ServerState.mk ["t1"] ["t1"] ["s9"] [("s9", 5)]).sseStreams) ∧
    "s9" ∉ (keepaliveTick (fun _ => WriteOutcome.thrown)
      (ServerState.mk ["t1"] ["t1"] ["s9"] [("s9", 5)])).sseStreams :=
  ⟨by decide,
   ((claim1_amended (fun _ => WriteOutcome.thrown)
      (ServerState.mk ["t1"] ["t1"] ["s9"] [("s9", 5)]) "s9" (by decide)).2.2.1 rfl).1⟩

/-- Claim C3: a POST without a session id is accepted exactly when its
method is the bootstrap handshake method initialize (the fresh id is
minted by the transport and registered by the onsessioninitialized
callback, modelled by completeInit); every other method is rejected with
the SessionRequired error (code -32000, HTTP 400) and the session state
is unchanged. -/
theorem claim3_no_session_policy (req : Request) (now : Nat) (st : ServerState) (b : RpcBody)
    (hb : req.body = some b) (hm : req.httpMethod = "POST")
    (hsid : findHeader req.headers "mcp-session-id" = none) :
    (b.method = some "initialize" → mcpHandler req now st = (McpOutcome.handshake, st)) ∧
    (b.method ≠ some "initialize" →
      mcpHandler req now st =
        (McpOutcome.reject 400 (-32000) sessionRequiredMessage b.id, st)) ∧
    (∀ newId, newId ∈ (completeInit newId now st).transports) := by
  refine ⟨?_, ?_, ?_⟩
  · intro hinit
    simp [mcpHandler, hsid, hm, hb, hinit]
  · intro hni
    simp [mcpHandler, hsid, hm, hb, hni]
  · intro newId
    simp only [completeInit]
    exact mem_insertId newId st.transports

/-- Claim C3 witness: a sessionless tools/list POST is rejected with the
SessionRequired error and no session is created, while a sessionless
initialize POST is accepted. -/
theorem claim3_witness :
    mcpHandler
        (Request.mk "POST" [] (some (RpcBody.mk (some "tools/list") (some (JsonId.s "q")))))
        0 (ServerState.mk [] [] [] []) =
      (McpOutcome.reject 400 (-32000) sessionRequiredMessage (some (JsonId.s "q")),
       ServerState.mk [] [] [] []) ∧
    mcpHandler
        (Request.mk "POST" [] (some (RpcBody.mk (some "initialize") none)))
        0 (ServerState.mk [] [] [] []) =
      (McpOutcome.handshake, ServerState.mk [] [] [] []) :=
  ⟨(claim3_no_session_policy
      (Request.mk "POST" [] (some (RpcBody.mk (some "tools/list") (some (JsonId.s "q")))))
      0 (ServerState.mk [] [] [] []) (RpcBody.mk (some "tools/list") (some (JsonId.s "q")))
      rfl rfl rfl).2.1 (by decide),
   (claim3_no_session_policy
      (Request.mk "POST" [] (some (RpcBody.mk (some "initialize") none)))
      0 (ServerState.mk [] [] [] []) (RpcBody.mk (some "initialize") none)
      rfl rfl rfl).1 rfl⟩

/-- Claim C4, counterexample.  The claim states that a header holding a
single string value normalizes to that value; but the source treats a
falsy raw value as absent, so a header holding the empty string
normalizes to absent instead of the empty string. -/
theorem claim4_counterexample :
    findHeader [("x", HeaderVal.str "")] "x" = some (HeaderVal.str "") ∧
    getHeaderValue [("x", HeaderVal.str "")] "x" = none ∧
    (none : Option String) ≠ some "" :=
  ⟨rfl, rfl, by decide⟩

/-- Claim C4, amended.  Normalization is a pure function such that: an
absent header yields absent; a single empty-string value yields absent;
a single non-empty value yields that value; a list value yields its
first element (absent for the empty list). -/
theorem claim4_amended (headers : Headers) (name : String) :
    (findHeader headers name = none → getHeaderValue headers name = none) ∧
    (findHeader headers name = some (HeaderVal.str "") → getHeaderValue headers name = none) ∧
    (∀ s, s ≠ "" → findHeader headers name = some (HeaderVal.str s) →
      getHeaderValue headers name = some s) ∧
    (∀ l, findHeader headers name = some (HeaderVal.list l) →
      getHeaderValue headers name = l.head?) := by
  refine ⟨?_, ?_, ?_, ?_⟩ <;> intros <;> simp [getHeaderValue, *, jsFalsy]

/-- Claim C4 witness: a store with a single non-empty value normalizes
to that value. -/
theorem claim4_witness :
    findHeader [("h", HeaderVal.str "v")] "h" = some (HeaderVal.str "v") ∧
    getHeaderValue [("h", HeaderVal.str "v")] "h" = some "v" :=
  ⟨rfl, (claim4_amended [("h", HeaderVal.str "v")] "h").2.2.1 "v" (by decide) rfl⟩

/-- Claim C7, counterexample.  The claim states that a credential header
that is present but not Bearer-prefixed yields the malformed-credential
error.  A header present as the one-element array of the empty string
normalizes to the empty string, which is not Bearer-prefixed, yet JS
falsiness routes it to the missing-credential error instead. -/
theorem claim7_counterexample :
    findHeader [("authorization", HeaderVal.list [""])] "authorization" =
      some (HeaderVal.list [""]) ∧
    getHeaderValue [("authorization", HeaderVal.list [""])] "authorization" = some "" ∧
    jsStartsWith "" "Bearer " = false ∧
    salesforceOAuthMiddleware
        (Request.mk "POST" [("authorization", HeaderVal.list [""])]
          (some (RpcBody.mk (some "tools/call") (some (JsonId.n 1))))) =
      MwResult.reject 401 (-32000) missingAuthMessage (some (JsonId.n 1)) ∧
    missingAuthMessage ≠ malformedAuthMessage :=
  ⟨rfl, rfl, rfl, by decide, by decide⟩

/-- Claim C7, amended.  For requests subject to authentication (not a
GET, method not allow-listed): a credential header that is absent or
whose normalized value is the empty string yields the missing-credential
error; a non-empty normalized value without the case-sensitive Bearer
tag yields the malformed-credential error; a Bearer-tagged value whose
remainder trims to empty yields the empty-credential error; each case
short-circuits with a 401 reject so no auth context is attached. -/
theorem claim7_amended (req : Request)
    (hget : req.httpMethod ≠ "GET")
    (hskip : isSkipMethod (req.body.bind RpcBody.method) = false) :
    (getHeaderValue req.headers "authorization" = none →
      salesforceOAuthMiddleware req =
        MwResult.reject 401 (-32000) missingAuthMessage (mwRequestId req.body)) ∧
    (getHeaderValue req.headers "authorization" = some "" →
      salesforceOAuthMiddleware req =
        MwResult.reject 401 (-32000) missingAuthMessage (mwRequestId req.body)) ∧
    (∀ a, getHeaderValue req.headers "authorization" = some a → a ≠ "" →
      jsStartsWith a "Bearer " = false →
      salesforceOAuthMiddleware req =
        MwResult.reject 401 (-32000) malformedAuthMessage (mwRequestId req.body)) ∧
    (∀ a, getHeaderValue req.headers "authorization" = some a → a ≠ "" →
      jsStartsWith a "Bearer " = true → jsTrim (jsDrop 7 a) = "" →
      salesforceOAuthMiddleware req =
        MwResult.reject 401 (-32000) emptyTokenMessage (mwRequestId req.body)) := by
  refine ⟨?_, ?_, ?_, ?_⟩ <;> intros <;> simp [salesforceOAuthMiddleware, hget, hskip, *]

/-- Claim C7 witness: a non-Bearer credential on an authenticated method
is rejected with the malformed-credential error. -/
theorem claim7_witness :
    jsStartsWith "Token abc" "Bearer " = false ∧
    salesforceOAuthMiddleware
        (Request.mk "POST" [("authorization", HeaderVal.str "Token abc")]
          (some (RpcBody.mk (some "tools/call") (some (JsonId.n 2))))) =
      MwResult.reject 401 (-32000) malformedAuthMessage (some (JsonId.n 2)) :=
  ⟨rfl, (claim7_amended _ (by decide) (by decide)).2.2.1 "Token abc" rfl (by decide) rfl⟩

/-- Claim C8: a request presenting a session id that is not currently
registered in the transport map (never issued, presented before the
onsessioninitialized callback registered it, or presented after
teardown) is rejected with the InvalidSession error (code -32000, HTTP
400) and the state is unchanged, regardless of the HTTP method and of
the RPC method, including initialize. -/
theorem claim8_invalid_session (req : Request) (now : Nat) (st : ServerState) (sid : String)
    (hraw : findHeader req.headers "mcp-session-id" = some (HeaderVal.str sid))
    (hne : sid ≠ "") (hnt : sid ∉ st.transports) :
    mcpHandler req now st =
      (McpOutcome.reject 400 (-32000) invalidSessionMessage (handlerBodyId req.body), st) := by
  simp [mcpHandler, hraw, hne, hnt]

/-- Claim C8 witness: even an initialize POST carrying an unknown
session id is rejected with the InvalidSession error. -/
theorem claim8_witness :
    ("stale" ∉ (ServerState.mk [] [] [] []).transports) ∧
    mcpHandler
        (Request.mk "POST" [("mcp-session-id", HeaderVal.str "stale")]
          (some (RpcBody.mk (some "initialize") none)))
        0 (ServerState.mk [] [] [] []) =
      (McpOutcome.reject 400 (-32000) invalidSessionMessage none,
       ServerState.mk [] [] [] []) :=
  ⟨by decide,
   claim8_invalid_session
     (Request.mk "POST" [("mcp-session-id", HeaderVal.str "stale")]
       (some (RpcBody.mk (some "initialize") none)))
     0 (ServerState.mk [] [] [] []) "stale" rfl (by decide) (by decide)⟩

/-- Claim C2, counterexample.  The claim states that the id field of a
protocol-level error response is null when the correlation id is
unavailable.  An auth-gate rejection of a request with an unparseable
body carries the string placeholder "unknown" instead of null. -/
theorem claim2_counterexample :
    salesforceOAuthMiddleware (Request.mk "POST" [] none) =
      MwResult.reject 401 (-32000) missingAuthMessage (some (JsonId.s "unknown")) ∧
    some (JsonId.s "unknown") ≠ (none : Option JsonId) :=
  ⟨by decide, by decide⟩

/-- Claim C2, amended.  Every protocol-level error response echoes the
correlation id of the originating call when one is present; when it is
unavailable, the auth-gate rejections carry the string placeholder
"unknown" while the session rejections and the internal-error response
carry null. -/
theorem claim2_amended :
    (∀ (req : Request) (s : Nat) (c : Int) (m : String) (i : Option JsonId),
      salesforceOAuthMiddleware req = MwResult.reject s c m i → i = mwRequestId req.body) ∧
    (∀ (req : Request) (now : Nat) (st : ServerState) (s : Nat) (c : Int) (m : String)
        (i : Option JsonId),
      (mcpHandler req now st).1 = McpOutcome.reject s c m i → i = handlerBodyId req.body) ∧
    (∀ b : RpcBody, b.id = none → mwRequestId (some b) = some (JsonId.s "unknown")) ∧
    mwRequestId none = some (JsonId.s "unknown") ∧
    handlerBodyId none = none := by
  refine ⟨?_, ?_, ?_, rfl, rfl⟩
  · intro req s c m i h
    simp only [salesforceOAuthMiddleware] at h
    split at h
    · simp at h
    · split at h
      · simp at h
      · split at h
        · injection h with h1 h2 h3 h4
          exact h4.symm
        · split at h
          · injection h with h1 h2 h3 h4
            exact h4.symm
          · split at h
            · injection h with h1 h2 h3 h4
              exact h4.symm
            · split at h
              · injection h with h1 h2 h3 h4
                exact h4.symm
              · simp at h
  · intro req now st s c m i h
    cases hbody : req.body with
    | none =>
      simp only [mcpHandler, hbody] at h
      split at h
      · simp only [handlerBodyId, hbody, Option.bind]
        simp at h
        exact h.2.2.2.symm
      · split at h
        · simp only [handlerBodyId, hbody, Option.bind]
          simp [handlerBodyId, hbody] at h
          exact h.2.2.2.symm
        · simp at h
    | some b =>
      simp only [mcpHandler, hbody] at h
      split at h
      · split at h
        · simp at h
        · simp only [handlerBodyId, hbody, Option.bind]
          simp at h
          exact h.2.2.2.symm
      · split at h
        · simp only [handlerBodyId, hbody]
          simp [handlerBodyId, hbody] at h
          exact h.2.2.2.symm
        · simp at h
  · intro b hb
    simp [mwRequestId, hb]

/-- Claim C2 witness: an auth-gate rejection of a request whose body
carries a numeric correlation id echoes that id. -/
theorem claim2_witness :
    salesforceOAuthMiddleware
        (Request.mk "POST" [] (some (RpcBody.mk (some "tools/list") (some (JsonId.n 7))))) =
      MwResult.reject 401 (-32000) missingAuthMessage (some (JsonId.n 7)) ∧
    some (JsonId.n 7) =
      mwRequestId (Request.mk "POST" []
        (some (RpcBody.mk (some "tools/list") (some (JsonId.n 7))))).body :=
  ⟨by decide,
   claim2_amended.1
     (Request.mk "POST" [] (some (RpcBody.mk (some "tools/list") (some (JsonId.n 7)))))
     401 (-32000) missingAuthMessage (some (JsonId.n 7)) (by decide)⟩

/-- Helper for the slow path: with a valid bearer header and a falsy
instance-URL header, getAuthContext is the mapped result of exactly one
introspection call. -/
theorem getAuthContext_slow (hs : Headers) (a : String) (fr : FetchResult) (calls : Nat)
    (hA : getHeaderValue hs "authorization" = some a) (h0 : a ≠ "")
    (h1 : jsStartsWith a "Bearer " = true) (h2 : jsTrim (jsDrop 7 a) ≠ "")
    (hI : normFalsy (getHeaderValue hs "x-salesforce-instance-url") = none) :
    getAuthContext (some hs) fr calls =
      ((processUserinfo fr).map
        (fun u => SalesforceAuthContext.mk (jsTrim (jsDrop 7 a)) (some u) none),
       calls + 1) := by
  cases hp : processUserinfo fr <;>
    simp [getAuthContext, hA, h0, h1, h2, hI, deriveInstanceUrlFromToken, hp]

/-- Claim C5: with the resource-endpoint header absent (falsy), a valid
bearer credential makes exactly one introspection call; a 2xx response
whose nested rest field is the stub URL yields the scheme and host only;
a network failure, a non-2xx status, an unparseable body, or a missing
rest field all yield no endpoint (resolution returns absent). -/
theorem claim5_slow_path (hs : Headers) (a : String) (calls : Nat)
    (hA : getHeaderValue hs "authorization" = some a) (h0 : a ≠ "")
    (h1 : jsStartsWith a "Bearer " = true) (h2 : jsTrim (jsDrop 7 a) ≠ "")
    (hI : normFalsy (getHeaderValue hs "x-salesforce-instance-url") = none) :
    (∀ fr, (getAuthContext (some hs) fr calls).2 = calls + 1) ∧
    (getAuthContext (some hs)
        (FetchResult.response true (some (some "https://foo.example.com/services/data/v60.0/")))
        calls).1 =
      some (SalesforceAuthContext.mk (jsTrim (jsDrop 7 a))
        (some "https://foo.example.com") none) ∧
    (getAuthContext (some hs) FetchResult.networkError calls).1 = none ∧
    (∀ body, (getAuthContext (some hs) (FetchResult.response false body) calls).1 = none) ∧
    (getAuthContext (some hs) (FetchResult.response true none) calls).1 = none ∧
    (getAuthContext (some hs) (FetchResult.response true (some none)) calls).1 = none := by
  have hgood : processUserinfo
      (FetchResult.response true (some (some "https://foo.example.com/services/data/v60.0/"))) =
      some "https://foo.example.com" := by decide
  refine ⟨?_, ?_, ?_, ?_, ?_, ?_⟩
  · intro fr
    rw [getAuthContext_slow hs a fr calls hA h0 h1 h2 hI]
  · rw [getAuthContext_slow hs a _ calls hA h0 h1 h2 hI, hgood]
    rfl
  · rw [getAuthContext_slow hs a _ calls hA h0 h1 h2 hI]
    rfl
  · intro body
    rw [getAuthContext_slow hs a _ calls hA h0 h1 h2 hI]
    simp [processUserinfo]
  · rw [getAuthContext_slow hs a _ calls hA h0 h1 h2 hI]
    rfl
  · rw [getAuthContext_slow hs a _ calls hA h0 h1 h2 hI]
    rfl

/-- Claim C5 witness: the concrete slow-path resolution of the spec
sentence, on a store holding only the bearer credential. -/
theorem claim5_witness :
    getHeaderValue [("authorization", HeaderVal.str "Bearer abc")] "authorization" =
      some "Bearer abc" ∧
    (getAuthContext (some [("authorization", HeaderVal.str "Bearer abc")])
        (FetchResult.response true (some (some "https://foo.example.com/services/data/v60.0/")))
        0).1 =
      some (SalesforceAuthContext.mk (jsTrim (jsDrop 7 "Bearer abc"))
        (some "https://foo.example.com") none) :=
  ⟨rfl,
   (claim5_slow_path [("authorization", HeaderVal.str "Bearer abc")] "Bearer abc" 0
      rfl (by decide) (by decide) (by decide) rfl).2.1⟩

/-- Claim C6, counterexample.  The claim states that whenever the
resource-endpoint header is present, resolution uses its value verbatim
and performs no network call.  With the header present as the
one-element array of the empty string (normalized value the empty
string), the source treats the falsy value as absent: the introspection
call fires (the call counter rises from zero to one) and the resolved
endpoint is the derived one, not the header value. -/
theorem claim6_counterexample :
    findHeader
        [("authorization", HeaderVal.str "Bearer tok"),
         ("x-salesforce-instance-url", HeaderVal.list [""])]
        "x-salesforce-instance-url" = some (HeaderVal.list [""]) ∧
    getHeaderValue
        [("authorization", HeaderVal.str "Bearer tok"),
         ("x-salesforce-instance-url", HeaderVal.list [""])]
        "x-salesforce-instance-url" = some "" ∧
    (getAuthContext
        (some [("authorization", HeaderVal.str "Bearer tok"),
               ("x-salesforce-instance-url", HeaderVal.list [""])])
        FetchResult.networkError 0).2 = 1 ∧
    (getAuthContext
        (some [("authorization", HeaderVal.str "Bearer tok"),
               ("x-salesforce-instance-url", HeaderVal.list [""])])
        (FetchResult.response true (some (some "https://foo.example.com/services/data/v60.0/")))
        0).1 =
      some (SalesforceAuthContext.mk (jsTrim (jsDrop 7 "Bearer tok"))
        (some "https://foo.example.com") none) ∧
    some ("https://foo.example.com" : String) ≠ some ("" : String) :=
  ⟨rfl, rfl, by decide, by decide, by decide⟩

/-- Claim C6, amended.  When the resource-endpoint header normalizes to
a present, non-empty (truthy) value, resolution performs no
introspection call whatever the oracle would answer, and with a valid
bearer credential it uses the header value verbatim as the instance
URL.  (A header present with an empty, falsy value is treated as absent
and resolution falls to the slow path, as the counterexample shows.) -/
theorem claim6_fast_path (hs : Headers) (u : String)
    (hU : getHeaderValue hs "x-salesforce-instance-url" = some u) (hU0 : u ≠ "") :
    (∀ fr calls, (getAuthContext (some hs) fr calls).2 = calls) ∧
    (∀ a fr calls, getHeaderValue hs "authorization" = some a → a ≠ "" →
      jsStartsWith a "Bearer " = true → jsTrim (jsDrop 7 a) ≠ "" →
      getAuthContext (some hs) fr calls =
        (some (SalesforceAuthContext.mk (jsTrim (jsDrop 7 a)) (some u) none), calls)) := by
  have hnf : normFalsy (getHeaderValue hs "x-salesforce-instance-url") = some u := by
    rw [hU]
    simp [normFalsy, hU0]
  constructor
  · intro fr calls
    cases hA : getHeaderValue hs "authorization" with
    | none => simp [getAuthContext, hA]
    | some a =>
      by_cases h0 : a = ""
      · simp [getAuthContext, hA, h0]
      · by_cases h1 : jsStartsWith a "Bearer " = false
        · simp [getAuthContext, hA, h0, h1]
        · by_cases h2 : jsTrim (jsDrop 7 a) = ""
          · simp [getAuthContext, hA, h0, h1, h2]
          · simp [getAuthContext, hA, h0, h1, h2, hnf]
  · intro a fr calls hA h0 h1 h2
    simp [getAuthContext, hA, h0, h1, h2, hnf]

/-- Claim C6 witness: with the header present, even an oracle that would
fail the network call is never consulted and the header value is used
verbatim. -/
theorem claim6_witness :
    getHeaderValue
        [("authorization", HeaderVal.str "Bearer tok"),
         ("x-salesforce-instance-url", HeaderVal.str "https://my.example.com")]
        "x-salesforce-instance-url" = some "https://my.example.com" ∧
    getAuthContext
        (some [("authorization", HeaderVal.str "Bearer tok"),
               ("x-salesforce-instance-url", HeaderVal.str "https://my.example.com")])
        FetchResult.networkError 0 =
      (some (SalesforceAuthContext.mk (jsTrim (jsDrop 7 "Bearer tok"))
        (some "https://my.example.com") none), 0) :=
  ⟨rfl,
   (claim6_fast_path
      [("authorization", HeaderVal.str "Bearer tok"),
       ("x-salesforce-instance-url", HeaderVal.str "https://my.example.com")]
      "https://my.example.com" rfl (by decide)).2 "Bearer tok" FetchResult.networkError 0
      rfl (by decide) (by decide) (by decide)⟩

/-- Claim C9: session destruction is idempotent (a second teardown of
the same id is a no-op on the state, and every teardown is a total
function so it never raises), and an activity entry older than the TTL
is destroyed exactly once by a sweep: its id appears exactly once in the
destroyed list of that sweep and zero times in the destroyed list of an
immediately following sweep with no interleaving activity. -/
theorem claim9_idempotent_destroy :
    (∀ (sid : String) (st : ServerState),
      destroySession sid (destroySession sid st) = destroySession sid st) ∧
    (∀ (st : ServerState) (now now2 ttl : Nat) (sid : String) (t : Nat),
      (st.sessionActivity.map Prod.fst).Nodup →
      (sid, t) ∈ st.sessionActivity →
      ttl < now - t →
      (pruneIdle now ttl st).2.count sid = 1 ∧
      (pruneIdle now2 ttl (pruneIdle now ttl st).1).2.count sid = 0) := by
  constructor
  · intro sid st
    simp [destroySession, filter_idem]
  · intro st now now2 ttl sid t hnd hmem hold
    have h1 := pruneGo_eq now ttl st.sessionActivity st []
    constructor
    · show (pruneGo now ttl st.sessionActivity (st, [])).2.count sid = 1
      rw [h1]
      simp only [List.nil_append]
      refine List.count_eq_one_of_mem
        (List.Nodup.sublist (List.Sublist.map Prod.fst (List.filter_sublist _)) hnd) ?_
      exact List.mem_map.mpr ⟨(sid, t), List.mem_filter.mpr ⟨hmem, by simp [hold]⟩, rfl⟩
    · have hpB : prunedB now ttl st.sessionActivity sid = true := by
        simp only [prunedB, List.any_eq_true]
        exact ⟨(sid, t), hmem, by simp [hold]⟩
      have h2 := pruneGo_eq now2 ttl (pruneIdle now ttl st).1.sessionActivity
        (pruneIdle now ttl st).1 []
      show (pruneGo now2 ttl (pruneIdle now ttl st).1.sessionActivity
        ((pruneIdle now ttl st).1, [])).2.count sid = 0
      rw [h2]
      simp only [List.nil_append]
      rw [List.count_eq_zero]
      intro hc
      obtain ⟨e, heMem, heFst⟩ := List.mem_map.mp hc
      have heAct : e ∈ (pruneIdle now ttl st).1.sessionActivity :=
        (List.mem_filter.mp heMem).1
      have h3 : (pruneIdle now ttl st).1.sessionActivity =
          st.sessionActivity.filter (fun p => !(prunedB now ttl st.sessionActivity p.1)) := by
        show (pruneGo now ttl st.sessionActivity (st, [])).1.sessionActivity = _
        rw [h1]
      rw [h3] at heAct
      have hkeep := (List.mem_filter.mp heAct).2
      rw [heFst, hpB] at hkeep
      simp at hkeep

/-- Claim C9 witness: a one-session state over the threshold is
destroyed once by the first sweep and not again by a back-to-back second
sweep. -/
theorem claim9_witness :
    ((ServerState.mk ["a"] ["a"] [] [("a", 0)]).sessionActivity.map Prod.fst).Nodup ∧
    (pruneIdle 10 3 (ServerState.mk ["a"] ["a"] [] [("a", 0)])).2.count "a" = 1 ∧
    (pruneIdle 99 3 (pruneIdle 10 3 (ServerState.mk ["a"] ["a"] [] [("a", 0)])).1).2.count "a"
      = 0 :=
  ⟨by decide,
   (claim9_idempotent_destroy.2 (ServerState.mk ["a"] ["a"] [] [("a", 0)]) 10 99 3 "a" 0
      (by decide) (by decide) (by decide)).1,
   (claim9_idempotent_destroy.2 (ServerState.mk ["a"] ["a"] [] [("a", 0)]) 10 99 3 "a" 0
      (by decide) (by decide) (by decide)).2⟩

/-- Helper for C10: one full timer tick (keepalive then prune) preserves
the transport and server registrations of a session that has no activity
record, and cannot create an activity record for it. -/
theorem tick_preserves_unrecorded (sid : String) (w : String → WriteOutcome) (now : Nat)
    (st : ServerState)
    (hA : ∀ u, (sid, u) ∉ st.sessionActivity)
    (hT : sid ∈ st.transports) (hM : sid ∈ st.mcpServers) :
    (∀ u, (sid, u) ∉ (timerTick w now st).sessionActivity) ∧
    sid ∈ (timerTick w now st).transports ∧ sid ∈ (timerTick w now st).mcpServers := by
  have hk := keepaliveGo_eq w st.sseStreams st
  have hkA : ∀ u, (sid, u) ∉ (keepaliveTick w st).sessionActivity := by
    intro u hu
    rw [keepaliveTick, hk] at hu
    exact hA u (List.mem_filter.mp hu).1
  have hkT : sid ∈ (keepaliveTick w st).transports := by
    rw [keepaliveTick, hk]
    exact hT
  have hkM : sid ∈ (keepaliveTick w st).mcpServers := by
    rw [keepaliveTick, hk]
    exact hM
  have hpB : prunedB now sessionTtlMs (keepaliveTick w st).sessionActivity sid = false := by
    rw [Bool.eq_false_iff]
    intro hp
    simp only [prunedB, List.any_eq_true] at hp
    obtain ⟨e, heMem, hdec⟩ := hp
    have hand := of_decide_eq_true hdec
    apply hkA e.2
    rw [← hand.1]
    exact heMem
  have hp := pruneGo_eq now sessionTtlMs (keepaliveTick w st).sessionActivity
    (keepaliveTick w st) []
  refine ⟨?_, ?_, ?_⟩
  · intro u hu
    have hu2 : (sid, u) ∈ (pruneGo now sessionTtlMs (keepaliveTick w st).sessionActivity
        (keepaliveTick w st, [])).1.sessionActivity := hu
    rw [hp] at hu2
    exact hkA u (List.mem_filter.mp hu2).1
  · show sid ∈ (pruneGo now sessionTtlMs (keepaliveTick w st).sessionActivity
      (keepaliveTick w st, [])).1.transports
    rw [hp]
    exact List.mem_filter.mpr ⟨hkT, by simp [hpB]⟩
  · show sid ∈ (pruneGo now sessionTtlMs (keepaliveTick w st).sessionActivity
      (keepaliveTick w st, [])).1.mcpServers
    rw [hp]
    exact List.mem_filter.mpr ⟨hkM, by simp [hpB]⟩

/-- Helper for C10: the preservation extends over any run of timer ticks. -/
theorem runTicks_preserves_unrecorded (sid : String) :
    ∀ (ticks : List ((String → WriteOutcome) × Nat)) (st : ServerState),
    (∀ u, (sid, u) ∉ st.sessionActivity) → sid ∈ st.transports → sid ∈ st.mcpServers →
    sid ∈ (runTicks ticks st).transports ∧ sid ∈ (runTicks ticks st).mcpServers := by
  intro ticks
  induction ticks with
  | nil =>
    intro st hA hT hM
    exact ⟨hT, hM⟩
  | cons p t ih =>
    intro st hA hT hM
    have h := tick_preserves_unrecorded sid p.1 p.2 st hA hT hM
    show sid ∈ (runTicks t (timerTick p.1 p.2 st)).transports ∧
      sid ∈ (runTicks t (timerTick p.1 p.2 st)).mcpServers
    exact ih (timerTick p.1 p.2 st) h.1 h.2.1 h.2.2

/-- Claim C10: after a keepalive write failure for a session (write
raised), the keepalive path deletes the activity record while the
transport and server registrations survive; the idle sweep iterates only
the activity map, so across every subsequent run of timer ticks those
registrations are never destroyed; an explicit teardown (the shared
destroy of the DELETE branch and the stream-close handler) does remove
them. -/
theorem claim10_sweep_blind_spot (st : ServerState) (sid : String) (w : String → WriteOutcome)
    (hw : w sid = WriteOutcome.thrown) (hS : sid ∈ st.sseStreams)
    (hT : sid ∈ st.transports) (hM : sid ∈ st.mcpServers) :
    (∀ u, (sid, u) ∉ (keepaliveTick w st).sessionActivity) ∧
    sid ∈ (keepaliveTick w st).transports ∧
    sid ∈ (keepaliveTick w st).mcpServers ∧
    (∀ ticks, sid ∈ (runTicks ticks (keepaliveTick w st)).transports ∧
      sid ∈ (runTicks ticks (keepaliveTick w st)).mcpServers) ∧
    sid ∉ (destroySession sid (keepaliveTick w st)).transports := by
  have hk := keepaliveGo_eq w st.sseStreams st
  have hdead : deadB w st.sseStreams sid = true := by
    simp only [deadB, List.any_eq_true]
    exact ⟨sid, hS, by simp [hw]⟩
  have hA : ∀ u, (sid, u) ∉ (keepaliveTick w st).sessionActivity := by
    intro u hu
    rw [keepaliveTick, hk] at hu
    have h2 := (List.mem_filter.mp hu).2
    rw [hdead] at h2
    simp at h2
  have hT1 : sid ∈ (keepaliveTick w st).transports := by
    rw [keepaliveTick, hk]
    exact hT
  have hM1 : sid ∈ (keepaliveTick w st).mcpServers := by
    rw [keepaliveTick, hk]
    exact hM
  refine ⟨hA, hT1, hM1, ?_, ?_⟩
  · intro ticks
    exact runTicks_preserves_unrecorded sid ticks (keepaliveTick w st) hA hT1 hM1
  · intro hcon
    have h2 := (List.mem_filter.mp hcon).2
    simp at h2

/-- Claim C10 witness: a session whose stream write raised keeps its
transport registration across a later full timer tick. -/
theorem claim10_witness :
    ("x" ∈ (ServerState.mk ["x"] ["x"] ["x"] [("x", 0)]).sseStreams) ∧
    "x" ∈ (runTicks [(fun _ => WriteOutcome.ok, 1000000000)]
      (keepaliveTick (fun _ => WriteOutcome.thrown)
        (ServerState.mk ["x"] ["x"] ["x"] [("x", 0)]))).transports :=
  ⟨by decide,
   ((claim10_sweep_blind_spot (ServerState.mk ["x"] ["x"] ["x"] [("x", 0)]) "x"
      (fun _ => WriteOutcome.thrown) rfl (by decide) (by decide)
      (by decide)).2.2.2.1 [(fun _ => WriteOutcome.ok, 1000000000)]).1⟩

end SfdcMcp
